import Mathlib

/-
  Shallow embedding of the shop-api repository (Go) for specification checking.

  Sources embedded:
  - internal/usecase/transaction.go  (SendCoinUseCase.SendCoin)
  - internal/usecase/item.go         (BuyItemUseCase.BuyItem)
  - internal/usecase/user.go         (UserUseCase.Auth, UserUseCase.GetUserInfo)
  - internal/db  (UserDB, ItemDB, TransactionDB over PostgreSQL)
  - internal/http handlers           (error-to-status mapping)
  - migrations/1-init.sql            (schema and seed catalog)

  Modelling conventions:
  - Go `int` is modelled as `Int` (the claims under check do not concern
    machine-word overflow boundaries).
  - The database is a `DBState` record of row lists.  Statements executed on
    the connection pool (`udb.Db.ExecContext`, e.g. `UpdateUserCoins`,
    `CreateUser`, `SetInitialCoins`) take effect immediately.  Statements
    executed through `*sql.Tx` (`RecordTransaction`, `UpdateUserInventory`)
    are buffered and take effect only at `tx.Commit()`; `tx.Rollback()`
    discards them.  This mirrors `database/sql` semantics exactly.
  - Store failures (connection loss, query errors) are injected through
    explicit fault records, one flag per store call site, consumed in the
    order the source issues the calls.  A failed statement does not apply
    its write.
  - bcrypt hashing/verification and JWT signing are external collaborators;
    they are parameters (`Crypto`) of the identity workflow, not stubbed
    constants.
  - `time.Now()` is modelled by a logical clock in the state, stamped on
    ledger inserts.
-/

namespace Shop

/-- Row of the `users` table (models.DBUser). -/
structure DBUser where
  id : Nat
  username : String
  passwordHash : String
  coins : Int
deriving Repr, DecidableEq

/-- Row of the `inventory` table (models.DBInventoryItem). -/
structure DBInventoryItem where
  userID : Nat
  itemType : String
  quantity : Int
deriving Repr, DecidableEq

/-- Row of the `coin_transactions` table (models.DBTransaction). -/
structure DBTransaction where
  senderUserID : Nat
  receiverUserID : Nat
  amount : Int
  transactionDate : Nat
deriving Repr, DecidableEq

/-- Row of the `items` table (models.DBItem). -/
structure DBItem where
  itemName : String
  price : Int
deriving Repr, DecidableEq

/-- The relational store: four tables, the `users` SERIAL counter, and a
logical clock standing for `time.Now()`. -/
structure DBState where
  users : List DBUser
  inventory : List DBInventoryItem
  ledger : List DBTransaction
  items : List DBItem
  nextId : Nat
  clock : Nat
deriving Repr, DecidableEq

/-- Typed errors of the usecase layer.  The named constructors are the
sentinel errors declared in user.go, transaction.go and item.go; wrapped
non-sentinel errors (store failures and their `fmt.Errorf` wrappers) are
`storeError` and match no sentinel under `errors.Is`. -/
inductive UCError where
  | invalidAmount
  | selfTransfer
  | receiverNotFound
  | insufficientFunds
  | userNotFound
  | itemNotFound
  | itemRequired
  | notEnoughCoins
  | invalidPassword
  | storeError (site : String)
deriving Repr, DecidableEq

/-- Message text of each error (`err.Error()` in Go); sentinel errors are
built with `fmt.Errorf("%w: ...", parent)` so their text is the parent's
text, a colon, and the suffix. -/
def UCError.text : UCError → String
  | .invalidAmount => "неверный запрос: сумма перевода должна быть положительной"
  | .selfTransfer => "неверный запрос: нельзя отправить монеты самому себе"
  | .receiverNotFound => "неверный запрос: получатель не найден"
  | .insufficientFunds => "неверный запрос: недостаточно монет для перевода"
  | .userNotFound => "не найдено: пользователь не найден"
  | .itemNotFound => "не найдено: товар не найден"
  | .itemRequired => "неверный запрос: название предмета обязательно"
  | .notEnoughCoins => "неверный запрос: недостаточно монет"
  | .invalidPassword => "не авторизован: неверный пароль"
  | .storeError site => "внутренняя ошибка: " ++ site

/-- UserDB.GetUserByUsername: `SELECT id, username, password_hash, coins
FROM users WHERE username = $1`; `sql.ErrNoRows` is reported as `(nil, nil)`. -/
def getUserByUsername (σ : DBState) (username : String) : Option DBUser :=
  σ.users.find? (fun u => u.username == username)

/-- UserDB.UpdateUserCoins: `UPDATE users SET coins = $1 WHERE id = $2`,
executed on the pool connection `udb.Db` (NOT on a transaction). -/
def updateUserCoins (σ : DBState) (userID : Nat) (coins : Int) : DBState :=
  { σ with users := σ.users.map (fun u => if u.id = userID then { u with coins := coins } else u) }

/-- UserDB.SetInitialCoins issues the same `UPDATE users SET coins = $1 WHERE
id = $2` on the pool connection. -/
def setInitialCoins (σ : DBState) (userID : Nat) (initialCoins : Int) : DBState :=
  updateUserCoins σ userID initialCoins

/-- UserDB.CreateUser: `INSERT INTO users (username, password_hash, coins)
VALUES ($1, $2, 0)` on the pool connection; the UNIQUE(username) constraint
rejects a duplicate. -/
def createUser (σ : DBState) (username passwordHash : String) : Except UCError DBState :=
  if σ.users.any (fun u => u.username == username) then
    .error (.storeError "users.username unique violation")
  else
    .ok { σ with
          users := σ.users ++ [⟨σ.nextId, username, passwordHash, 0⟩],
          nextId := σ.nextId + 1 }

/-- ItemDB.GetItemPrice: `SELECT price FROM items WHERE item_name = $1`. -/
def getItemPrice (σ : DBState) (itemName : String) : Option Int :=
  (σ.items.find? (fun it => it.itemName == itemName)).map (fun it => it.price)

/-- Effect of TransactionDB.RecordTransaction once committed: `INSERT INTO
coin_transactions (sender_user_id, receiver_user_id, amount,
transaction_date) VALUES ($1, $2, $3, $4)` with `time.Now()` as the date. -/
def recordTransaction (σ : DBState) (senderUserID receiverUserID : Nat) (amount : Int) : DBState :=
  { σ with
    ledger := σ.ledger ++ [⟨senderUserID, receiverUserID, amount, σ.clock⟩],
    clock := σ.clock + 1 }

/-- Effect of UserDB.UpdateUserInventory once committed: read the existing
quantity for `(user_id, item_type)`; if a row exists, `UPDATE` it to the
existing quantity plus `quantity`, else `INSERT` a row with `quantity`. -/
def updateUserInventory (σ : DBState) (userID : Nat) (itemType : String) (quantity : Int) :
    DBState :=
  match σ.inventory.find? (fun it => it.userID == userID && it.itemType == itemType) with
  | some row =>
      { σ with inventory := σ.inventory.map (fun it =>
          if it.userID == userID && it.itemType == itemType then
            { it with quantity := row.quantity + quantity }
          else it) }
  | none =>
      { σ with inventory := σ.inventory ++ [⟨userID, itemType, quantity⟩] }

/-- Fault injection for SendCoin, one flag per store call in source order. -/
structure SendFaults where
  failGetSender : Bool := false
  failGetReceiver : Bool := false
  failBegin : Bool := false
  failUpdSender : Bool := false
  failUpdReceiver : Bool := false
  failRecord : Bool := false
  failCommit : Bool := false
deriving Repr, DecidableEq

/-- SendCoinUseCase.SendCoin (transaction.go).  Validation happens before
`BeginTx`.  The two `UpdateUserCoins` calls run on the pool connection and
take effect immediately; `RecordTransaction` runs on the transaction, so its
insert is applied only if the deferred `tx.Commit()` succeeds.  The deferred
closure assigns a commit error to the local `err` of a function whose return
value is unnamed, so a commit failure is not propagated: the call still
returns nil. -/
def sendCoin (σ : DBState) (f : SendFaults) (senderUsername receiverUsername : String)
    (amount : Int) : Except UCError Unit × DBState :=
  if amount ≤ 0 then (.error .invalidAmount, σ)
  else if f.failGetSender then (.error (.storeError "GetUserByUsername sender"), σ)
  else
    match getUserByUsername σ senderUsername with
    | none => (.error .userNotFound, σ)
    | some senderUser =>
      if f.failGetReceiver then (.error (.storeError "GetUserByUsername receiver"), σ)
      else
        match getUserByUsername σ receiverUsername with
        | none => (.error .receiverNotFound, σ)
        | some receiverUser =>
          if senderUser.id = receiverUser.id then (.error .selfTransfer, σ)
          else if senderUser.coins < amount then (.error .insufficientFunds, σ)
          else if f.failBegin then (.error (.storeError "BeginTx"), σ)
          else if f.failUpdSender then
            -- failed pool UPDATE applies nothing; rollback of the empty tx buffer is a no-op
            (.error (.storeError "UpdateUserCoins sender"), σ)
          else
            let σ1 := updateUserCoins σ senderUser.id (senderUser.coins - amount)
            if f.failUpdReceiver then
              -- the sender's debit already committed on the pool connection
              (.error (.storeError "UpdateUserCoins receiver"), σ1)
            else
              let σ2 := updateUserCoins σ1 receiverUser.id (receiverUser.coins + amount)
              if f.failRecord then
                -- rollback discards the buffered ledger insert; balances stand
                (.error (.storeError "RecordTransaction"), σ2)
              else if f.failCommit then
                -- commit failure drops the buffered insert; `return nil` already
                -- fixed the (unnamed) return value, so the caller sees success
                (.ok (), σ2)
              else
                (.ok (), recordTransaction σ2 senderUser.id receiverUser.id amount)

/-- Fault injection for BuyItem, one flag per store call in source order. -/
structure BuyFaults where
  failGetPrice : Bool := false
  failGetUser : Bool := false
  failBegin : Bool := false
  failUpdCoins : Bool := false
  failUpdInventory : Bool := false
  failCommit : Bool := false
deriving Repr, DecidableEq

/-- BuyItemUseCase.BuyItem (item.go).  Any error from `GetItemPrice` —
including a store failure distinct from "no such row" — is collapsed to
`ErrItemNotFound`.  The debit runs on the pool connection; the inventory
upsert runs on the transaction and is applied only if the deferred commit
succeeds; a commit error is lost exactly as in `sendCoin`. -/
def buyItem (σ : DBState) (f : BuyFaults) (username item : String) :
    Except UCError Unit × DBState :=
  if item = "" then (.error .itemRequired, σ)
  else if f.failGetPrice then (.error .itemNotFound, σ)
  else
    match getItemPrice σ item with
    | none => (.error .itemNotFound, σ)
    | some price =>
      if f.failGetUser then (.error (.storeError "GetUserByUsername"), σ)
      else
        match getUserByUsername σ username with
        | none => (.error .userNotFound, σ)
        | some user =>
          if user.coins < price then (.error .notEnoughCoins, σ)
          else if f.failBegin then (.error (.storeError "BeginTx"), σ)
          else if f.failUpdCoins then (.error (.storeError "UpdateUserCoins"), σ)
          else
            let σ1 := updateUserCoins σ user.id (user.coins - price)
            if f.failUpdInventory then
              -- rollback discards the buffered upsert; the pool-side debit stands
              (.error (.storeError "UpdateUserInventory"), σ1)
            else if f.failCommit then
              (.ok (), σ1)
            else
              (.ok (), updateUserInventory σ1 user.id item 1)

/-- External collaborators of the identity workflow: bcrypt hashing and
verification, and JWT issuance, kept abstract as the spec directs. -/
structure Crypto where
  hash : String → String
  verify : String → String → Bool
  genToken : String → String

/-- Fault injection for Auth, one flag per fallible call in source order. -/
structure AuthFaults where
  failGetUser : Bool := false
  failHash : Bool := false
  failCreate : Bool := false
  failRefetch : Bool := false
  failSetCoins : Bool := false
  failSign : Bool := false
deriving Repr, DecidableEq

/-- UserUseCase.Auth (user.go).  An unknown username triggers registration:
`CreateUser` inserts the row with coins = 0, the user is re-fetched, and
`SetInitialCoins` grants 1000 — three independent pool statements with no
transaction around them.  A known username is verified with bcrypt. -/
def auth (c : Crypto) (σ : DBState) (f : AuthFaults) (username password : String) :
    Except UCError String × DBState :=
  if f.failGetUser then (.error (.storeError "GetUserByUsername"), σ)
  else
    match getUserByUsername σ username with
    | none =>
      if f.failHash then (.error (.storeError "bcrypt.GenerateFromPassword"), σ)
      else if f.failCreate then (.error (.storeError "CreateUser"), σ)
      else
        match createUser σ username (c.hash password) with
        | .error e => (.error e, σ)
        | .ok σ1 =>
          if f.failRefetch then (.error (.storeError "GetUserByUsername refetch"), σ1)
          else
            match getUserByUsername σ1 username with
            | none => (.error (.storeError "user missing after create"), σ1)
            | some user =>
              if f.failSetCoins then
                -- the freshly inserted row persists with coins = 0
                (.error (.storeError "SetInitialCoins"), σ1)
              else
                let σ2 := setInitialCoins σ1 user.id 1000
                if f.failSign then (.error (.storeError "GenerateJWTToken"), σ2)
                else (.ok (c.genToken username), σ2)
    | some user =>
      if c.verify user.passwordHash password then
        if f.failSign then (.error (.storeError "GenerateJWTToken"), σ)
        else (.ok (c.genToken username), σ)
      else
        (.error .invalidPassword, σ)

/-- API inventory item (models.InventoryItem). -/
structure InventoryItem where
  itemType : String
  quantity : Int
deriving Repr, DecidableEq

/-- API coin-history row (models.Transaction); Go leaves the unused
direction field as the empty string (`omitempty`). -/
structure ApiTransaction where
  fromUser : String
  toUser : String
  amount : Int
deriving Repr, DecidableEq

/-- API coin history (models.CoinHistory). -/
structure CoinHistory where
  received : List ApiTransaction
  sent : List ApiTransaction
deriving Repr, DecidableEq

/-- API info response (models.InfoResponse). -/
structure InfoResponse where
  coins : Int
  inventory : List InventoryItem
  coinHistory : CoinHistory
deriving Repr, DecidableEq

/-- Insert one row into a list already ordered by `transaction_date`
descending, keeping it ordered (models the row order produced by
`ORDER BY ct.transaction_date DESC`). -/
def insertDateDesc (t : DBTransaction) : List DBTransaction → List DBTransaction
  | [] => [t]
  | x :: xs =>
      if t.transactionDate ≤ x.transactionDate then x :: insertDateDesc t xs
      else t :: x :: xs

/-- Order a list of ledger rows by `transaction_date` descending. -/
def sortDateDesc : List DBTransaction → List DBTransaction
  | [] => []
  | x :: xs => insertDateDesc x (sortDateDesc xs)

/-- Newest-first ordering predicate on ledger rows. -/
def DateSortedDesc (l : List DBTransaction) : Prop :=
  l.Pairwise (fun a b => b.transactionDate ≤ a.transactionDate)

/-- Rows feeding the `received` history of TransactionDB.GetCoinHistory:
`WHERE ct.receiver_user_id = $1 ORDER BY ct.transaction_date DESC`. -/
def receivedRows (σ : DBState) (userID : Nat) : List DBTransaction :=
  sortDateDesc (σ.ledger.filter (fun t => t.receiverUserID == userID))

/-- Rows feeding the `sent` history of TransactionDB.GetCoinHistory:
`WHERE ct.sender_user_id = $1 ORDER BY ct.transaction_date DESC`. -/
def sentRows (σ : DBState) (userID : Nat) : List DBTransaction :=
  sortDateDesc (σ.ledger.filter (fun t => t.senderUserID == userID))

/-- TransactionDB.GetCoinHistory: two SELECT-only queries; the INNER JOIN
with `users` drops rows whose counterpart account row is missing and
supplies the counterpart username. -/
def getCoinHistory (σ : DBState) (userID : Nat) : CoinHistory :=
  { received := (receivedRows σ userID).filterMap (fun t =>
      (σ.users.find? (fun u => u.id == t.senderUserID)).map
        (fun u => ⟨u.username, "", t.amount⟩)),
    sent := (sentRows σ userID).filterMap (fun t =>
      (σ.users.find? (fun u => u.id == t.receiverUserID)).map
        (fun u => ⟨"", u.username, t.amount⟩)) }

/-- Fault injection for GetUserInfo, one flag per store call in source order. -/
structure InfoFaults where
  failGetUser : Bool := false
  failGetInventory : Bool := false
  failGetHistory : Bool := false
deriving Repr, DecidableEq

/-- UserUseCase.GetUserInfo (user.go): account lookup, inventory read and
the two ledger queries, all SELECTs; the state is returned untouched on
every path, successful or not. -/
def getUserInfo (σ : DBState) (f : InfoFaults) (username : String) :
    Except UCError InfoResponse × DBState :=
  if f.failGetUser then (.error (.storeError "GetUserByUsername"), σ)
  else
    match getUserByUsername σ username with
    | none => (.error .userNotFound, σ)
    | some user =>
      if f.failGetInventory then (.error (.storeError "GetUserInventory"), σ)
      else if f.failGetHistory then (.error (.storeError "GetCoinHistory"), σ)
      else
        (.ok { coins := user.coins,
               inventory := (σ.inventory.filter (fun it => it.userID == user.id)).map
                 (fun it => ⟨it.itemType, it.quantity⟩),
               coinHistory := getCoinHistory σ user.id }, σ)

/-- An HTTP reply as far as the claims observe it: status code and the
`errors` message (empty for 200 replies without a body of interest). -/
structure HttpReply where
  status : Nat
  body : String
deriving Repr, DecidableEq

/-- The generic message substituted for all 500 replies. -/
def genericInternal : String := "Внутренняя ошибка сервера."

/-- ApiHandler.handleSendCoin error mapping: the five sentinels (matched
with `errors.Is`) give 400 with the error text passed through; everything
else gives 500 with the generic message. -/
def handleSendCoinReply : Except UCError Unit → HttpReply
  | .ok _ => ⟨200, ""⟩
  | .error e =>
    match e with
    | .invalidAmount => ⟨400, e.text⟩
    | .insufficientFunds => ⟨400, e.text⟩
    | .selfTransfer => ⟨400, e.text⟩
    | .receiverNotFound => ⟨400, e.text⟩
    | .userNotFound => ⟨400, e.text⟩
    | _ => ⟨500, genericInternal⟩

/-- ApiHandler.handleBuyItem error mapping. -/
def handleBuyItemReply : Except UCError Unit → HttpReply
  | .ok _ => ⟨200, ""⟩
  | .error e =>
    match e with
    | .itemNotFound => ⟨400, e.text⟩
    | .itemRequired => ⟨400, e.text⟩
    | .notEnoughCoins => ⟨400, e.text⟩
    | .userNotFound => ⟨400, e.text⟩
    | _ => ⟨500, genericInternal⟩

/-- ApiHandler.handleAuth error mapping. -/
def handleAuthReply : Except UCError String → HttpReply
  | .ok token => ⟨200, token⟩
  | .error e =>
    match e with
    | .invalidPassword => ⟨401, e.text⟩
    | _ => ⟨500, genericInternal⟩

/-- ApiHandler.handleInfo error mapping. -/
def handleInfoReply : Except UCError InfoResponse → HttpReply
  | .ok _ => ⟨200, ""⟩
  | .error e =>
    match e with
    | .userNotFound => ⟨404, e.text⟩
    | _ => ⟨500, genericInternal⟩

/-- One externally invokable operation, with its fault schedule. -/
inductive Op where
  | opAuth (f : AuthFaults) (username password : String)
  | opSend (f : SendFaults) (sender receiver : String) (amount : Int)
  | opBuy (f : BuyFaults) (username item : String)
  | opInfo (f : InfoFaults) (username : String)
deriving Repr

/-- Post-state of one operation. -/
def runOp (c : Crypto) (σ : DBState) : Op → DBState
  | .opAuth f u p => (auth c σ f u p).2
  | .opSend f s r a => (sendCoin σ f s r a).2
  | .opBuy f u i => (buyItem σ f u i).2
  | .opInfo f u => (getUserInfo σ f u).2

/-- Post-state of a sequence of operations. -/
def run (c : Crypto) (σ : DBState) : List Op → DBState
  | [] => σ
  | op :: ops => run c (runOp c σ op) ops

/-- Every stored balance is non-negative. -/
def NonNegCoins (σ : DBState) : Prop :=
  ∀ u ∈ σ.users, 0 ≤ u.coins

/-- Fixture: user alice, id 1, 100 coins. -/
def userAlice : DBUser := ⟨1, "alice", "h_pw", 100⟩

/-- Fixture: user bob, id 2, 50 coins. -/
def userBob : DBUser := ⟨2, "bob", "h_pw2", 50⟩

/-- Fixture: a store with alice and bob, an empty inventory and ledger, and
two catalog rows from the seed data. -/
def testState : DBState :=
  ⟨[userAlice, userBob], [], [], [⟨"pen", 10⟩, ⟨"hoody", 300⟩], 3, 7⟩

/-- Fixture: a concrete instantiation of the external hashing/signing
collaborators, for evaluating the identity workflow on closed inputs. -/
def cryptoTest : Crypto :=
  ⟨fun p => "h_" ++ p, fun h p => h == "h_" ++ p, fun u => "tok_" ++ u⟩

/-- Fixture: a store whose ledger holds one transfer alice to bob (date 1)
and two transfers bob to alice recorded at dates 2 and 3, in insertion
order, so that the newest-first ordering of the history is visible. -/
def histState : DBState :=
  ⟨[userAlice, userBob], [⟨1, "pen", 2⟩],
   [⟨1, 2, 5, 1⟩, ⟨2, 1, 4, 2⟩, ⟨2, 1, 7, 3⟩],
   [⟨"pen", 10⟩], 3, 10⟩

/-- C1: the claim says a validated SendCoin applies debit, credit and ledger
append atomically and that a failure leaves no partial balance change
observable.  The code executes both UpdateUserCoins statements on the pool
connection outside the transaction, so when the credit statement fails the
already-executed debit persists: on a store with alice at 100 and bob at 50,
a transfer of 30 whose receiver update fails returns an error while the
post-state shows alice debited to 70 and bob unchanged — a partial balance
change, observable. -/
theorem sendCoin_credit_failure_leaves_partial_debit :
    (sendCoin testState { failUpdReceiver := true } "alice" "bob" 30).1 =
      .error (.storeError "UpdateUserCoins receiver") ∧
    (sendCoin testState { failUpdReceiver := true } "alice" "bob" 30).2.users =
      [⟨1, "alice", "h_pw", 70⟩, ⟨2, "bob", "h_pw2", 50⟩] ∧
    (sendCoin testState { failUpdReceiver := true } "alice" "bob" 30).2 ≠ testState := by
  refine ⟨rfl, rfl, ?_⟩
  decide

/-- C2: the claim says a validated BuyItem applies the debit and the
inventory upsert atomically, never a debit without the inventory increment.
The debit runs on the pool connection outside the transaction, so when the
inventory upsert fails the debit persists: alice at 100 buying pen (price
10) with a failing upsert gets an error back while her balance is already
90 and the inventory is unchanged. -/
theorem buyItem_upsert_failure_leaves_debit :
    (buyItem testState { failUpdInventory := true } "alice" "pen").1 =
      .error (.storeError "UpdateUserInventory") ∧
    (buyItem testState { failUpdInventory := true } "alice" "pen").2.users =
      [⟨1, "alice", "h_pw", 90⟩, ⟨2, "bob", "h_pw2", 50⟩] ∧
    (buyItem testState { failUpdInventory := true } "alice" "pen").2.inventory = [] := by
  exact ⟨rfl, rfl, rfl⟩

/-- C3: the claim says every SendCoin that returns success creates exactly
one ledger entry.  The deferred closure assigns a commit error to a local
variable of a function whose return value is unnamed, so a commit failure is
swallowed: with the commit failing, the transfer of 30 from alice to bob
returns success, both balances are updated (they ran on the pool), yet the
buffered ledger insert is rolled back and the ledger stays empty. -/
theorem sendCoin_commit_failure_success_without_ledger :
    (sendCoin testState { failCommit := true } "alice" "bob" 30).1 = .ok () ∧
    (sendCoin testState { failCommit := true } "alice" "bob" 30).2.users =
      [⟨1, "alice", "h_pw", 70⟩, ⟨2, "bob", "h_pw2", 80⟩] ∧
    (sendCoin testState { failCommit := true } "alice" "bob" 30).2.ledger = [] := by
  exact ⟨rfl, rfl, rfl⟩

/-- C4: the claim says every BuyItem that returns success debits the balance
and increments the inventory quantity by one.  A commit failure is swallowed
by the same unnamed-return slip as in SendCoin: the purchase of pen by alice
returns success and her balance is debited to 90 (pool-side write), yet the
buffered inventory upsert is rolled back and no inventory entry exists. -/
theorem buyItem_commit_failure_success_without_inventory :
    (buyItem testState { failCommit := true } "alice" "pen").1 = .ok () ∧
    (buyItem testState { failCommit := true } "alice" "pen").2.users =
      [⟨1, "alice", "h_pw", 90⟩, ⟨2, "bob", "h_pw2", 50⟩] ∧
    (buyItem testState { failCommit := true } "alice" "pen").2.inventory = [] := by
  exact ⟨rfl, rfl, rfl⟩

/-- A re-pointing UPDATE leaves a user list unchanged when no row has the
targeted id. -/
theorem map_setCoins_of_ne (l : List DBUser) (uid : Nat) (c : Int)
    (h : ∀ x ∈ l, x.id ≠ uid) :
    l.map (fun u => if u.id = uid then { u with coins := c } else u) = l := by
  induction l with
  | nil => rfl
  | cons x xs ih =>
      simp only [List.map_cons]
      rw [if_neg (h x (by simp)), ih (fun y hy => h y (by simp [hy]))]

/-- Appending a matching row to a list on which `find?` failed makes it the
found row. -/
theorem find?_append_singleton {α} (p : α → Bool) (l : List α) (x : α)
    (h : l.find? p = none) (hx : p x = true) : (l ++ [x]).find? p = some x := by
  induction l with
  | nil => simp [List.find?, hx]
  | cons a as ih =>
      simp only [List.find?] at h ⊢
      cases hpa : p a with
      | true => simp [hpa] at h
      | false =>
          simp only [hpa] at h ⊢
          exact ih h

/-- C5: SendCoin validates in the fixed order amount-positive, sender
exists, receiver exists, sender distinct from receiver, sufficient funds,
returning respectively the invalid-amount, user-not-found (the sender
case), receiver-not-found, self-transfer and insufficient-funds sentinels
for the first failing check, and every such rejection returns the store
unchanged — no balance is mutated. -/
theorem sendCoin_validation_order (σ : DBState) (f : SendFaults) (s r : String) (a : Int)
    (hgs : f.failGetSender = false) (hgr : f.failGetReceiver = false) :
    (a ≤ 0 → sendCoin σ f s r a = (.error .invalidAmount, σ)) ∧
    (0 < a → getUserByUsername σ s = none →
       sendCoin σ f s r a = (.error .userNotFound, σ)) ∧
    (∀ su, 0 < a → getUserByUsername σ s = some su → getUserByUsername σ r = none →
       sendCoin σ f s r a = (.error .receiverNotFound, σ)) ∧
    (∀ su ru, 0 < a → getUserByUsername σ s = some su → getUserByUsername σ r = some ru →
       su.id = ru.id → sendCoin σ f s r a = (.error .selfTransfer, σ)) ∧
    (∀ su ru, 0 < a → getUserByUsername σ s = some su → getUserByUsername σ r = some ru →
       su.id ≠ ru.id → su.coins < a →
       sendCoin σ f s r a = (.error .insufficientFunds, σ)) := by
  refine ⟨?_, ?_, ?_, ?_, ?_⟩
  · intro h
    simp [sendCoin, h]
  · intro ha hs
    have hna : ¬ a ≤ 0 := by omega
    simp [sendCoin, hna, hgs, hs]
  · intro su ha hs hr
    have hna : ¬ a ≤ 0 := by omega
    simp [sendCoin, hna, hgs, hgr, hs, hr]
  · intro su ru ha hs hr hid
    have hna : ¬ a ≤ 0 := by omega
    simp [sendCoin, hna, hgs, hgr, hs, hr, hid]
  · intro su ru ha hs hr hid hlt
    have hna : ¬ a ≤ 0 := by omega
    simp [sendCoin, hna, hgs, hgr, hs, hr, hid, hlt]

/-- C5 witness: a transfer to the unknown user ghost is rejected with the
receiver-not-found sentinel and the store is unchanged. -/
theorem sendCoin_validation_order_witness :
    sendCoin testState {} "alice" "ghost" 5 = (.error .receiverNotFound, testState) :=
  (sendCoin_validation_order testState {} "alice" "ghost" 5 rfl rfl).2.2.1
    userAlice (by decide) (by decide) (by decide)

/-- C7: Auth creates an unknown account with the hashed password and a
starting balance of exactly 1000 coins and issues a token; for a known
account it verifies the password against the stored hash, issuing a token
on match and returning the invalid-password sentinel with no state change
otherwise. -/
theorem auth_registration_and_login (c : Crypto) (σ : DBState) (u p : String)
    (hfresh : ∀ x ∈ σ.users, x.id < σ.nextId) :
    (getUserByUsername σ u = none →
      auth c σ {} u p =
        (.ok (c.genToken u),
         { σ with users := σ.users ++ [⟨σ.nextId, u, c.hash p, 1000⟩],
                  nextId := σ.nextId + 1 })) ∧
    (∀ user, getUserByUsername σ u = some user → c.verify user.passwordHash p = true →
      auth c σ {} u p = (.ok (c.genToken u), σ)) ∧
    (∀ user, getUserByUsername σ u = some user → c.verify user.passwordHash p = false →
      auth c σ {} u p = (.error .invalidPassword, σ)) := by
  refine ⟨?_, ?_, ?_⟩
  · intro h
    have hany : σ.users.any (fun x => x.username == u) = false := by
      rw [List.any_eq_false]
      intro x hx
      exact List.find?_eq_none.mp h x hx
    have hcu : createUser σ u (c.hash p) =
        .ok { σ with users := σ.users ++ [⟨σ.nextId, u, c.hash p, 0⟩],
                     nextId := σ.nextId + 1 } := by
      simp [createUser, hany]
    have hre : getUserByUsername
        { σ with users := σ.users ++ [⟨σ.nextId, u, c.hash p, 0⟩], nextId := σ.nextId + 1 } u =
        some ⟨σ.nextId, u, c.hash p, 0⟩ :=
      find?_append_singleton _ _ _ h (by simp)
    have hmap : (σ.users ++ [(⟨σ.nextId, u, c.hash p, 0⟩ : DBUser)]).map
        (fun x => if x.id = σ.nextId then { x with coins := 1000 } else x) =
        σ.users ++ [⟨σ.nextId, u, c.hash p, 1000⟩] := by
      rw [List.map_append, map_setCoins_of_ne _ _ _ (fun x hx => Nat.ne_of_lt (hfresh x hx))]
      simp
    simp [auth, h, hcu, hre, setInitialCoins, updateUserCoins, hmap]
  · intro user h hv
    simp [auth, h, hv]
  · intro user h hv
    simp [auth, h, hv]

/-- C7 witness: authenticating the unknown username carol creates the
account with the hashed password and 1000 coins and issues carol's token. -/
theorem auth_registration_and_login_witness :
    auth cryptoTest testState {} "carol" "pw" =
      (.ok (cryptoTest.genToken "carol"),
       { testState with
         users := testState.users ++ [⟨testState.nextId, "carol", cryptoTest.hash "pw", 1000⟩],
         nextId := testState.nextId + 1 }) :=
  (auth_registration_and_login cryptoTest testState "carol" "pw" (by decide)).1 (by decide)

/-- C10: first-time Auth runs the coins-0 INSERT and the 1000-coin UPDATE
as two independent non-transactional statements: when the grant UPDATE
fails, Auth returns an error while the freshly created account persists
with balance 0, and every later Auth against an existing account leaves the
store unchanged, so the grant is never retried. -/
theorem auth_grant_failure_persists_zero_coins (c : Crypto) (σ : DBState) (u p : String)
    (h : getUserByUsername σ u = none) :
    (auth c σ { failSetCoins := true } u p =
      (.error (.storeError "SetInitialCoins"),
       { σ with users := σ.users ++ [⟨σ.nextId, u, c.hash p, 0⟩],
                nextId := σ.nextId + 1 })) ∧
    (∀ σ2 user2, getUserByUsername σ2 u = some user2 →
       c.verify user2.passwordHash p = true →
       auth c σ2 {} u p = (.ok (c.genToken u), σ2)) := by
  refine ⟨?_, ?_⟩
  · have hany : σ.users.any (fun x => x.username == u) = false := by
      rw [List.any_eq_false]
      intro x hx
      exact List.find?_eq_none.mp h x hx
    have hcu : createUser σ u (c.hash p) =
        .ok { σ with users := σ.users ++ [⟨σ.nextId, u, c.hash p, 0⟩],
                     nextId := σ.nextId + 1 } := by
      simp [createUser, hany]
    have hre : getUserByUsername
        { σ with users := σ.users ++ [⟨σ.nextId, u, c.hash p, 0⟩], nextId := σ.nextId + 1 } u =
        some ⟨σ.nextId, u, c.hash p, 0⟩ :=
      find?_append_singleton _ _ _ h (by simp)
    simp [auth, h, hcu, hre]
  · intro σ2 user2 h2 hv
    simp [auth, h2, hv]

/-- C10 witness: carol's registration with a failing grant leaves her row
at 0 coins, and her next successful login leaves the store — and her 0
balance — untouched. -/
theorem auth_grant_failure_persists_zero_coins_witness :
    (auth cryptoTest testState { failSetCoins := true } "carol" "pw" =
      (.error (.storeError "SetInitialCoins"),
       { testState with users := testState.users ++ [⟨3, "carol", "h_pw", 0⟩], nextId := 4 })) ∧
    (auth cryptoTest
        { testState with users := testState.users ++ [⟨3, "carol", "h_pw", 0⟩], nextId := 4 }
        {} "carol" "pw" =
      (.ok (cryptoTest.genToken "carol"),
       { testState with users := testState.users ++ [⟨3, "carol", "h_pw", 0⟩], nextId := 4 })) := by
  have h := auth_grant_failure_persists_zero_coins cryptoTest testState "carol" "pw" (by decide)
  exact ⟨h.1, h.2 _ ⟨3, "carol", "h_pw", 0⟩ (by decide) (by decide)⟩

/-- Balances stay non-negative under a coins UPDATE writing a non-negative
value. -/
theorem nonNeg_updateUserCoins {σ : DBState} {uid : Nat} {c : Int}
    (hσ : NonNegCoins σ) (hc : 0 ≤ c) : NonNegCoins (updateUserCoins σ uid c) := by
  intro u hu
  simp only [updateUserCoins, List.mem_map] at hu
  obtain ⟨x, hx, rfl⟩ := hu
  by_cases hid : x.id = uid
  · simpa [hid] using hc
  · simpa [hid] using hσ x hx

/-- Non-negativity only depends on the users table. -/
theorem nonNegCoins_of_users_eq {σ σ2 : DBState} (h : σ2.users = σ.users)
    (hσ : NonNegCoins σ) : NonNegCoins σ2 := by
  intro u hu
  exact hσ u (h ▸ hu)

/-- The inventory upsert leaves the users table untouched. -/
theorem users_updateUserInventory (σ : DBState) (uid : Nat) (it : String) (q : Int) :
    (updateUserInventory σ uid it q).users = σ.users := by
  unfold updateUserInventory
  split <;> rfl

/-- SendCoin never writes a negative balance, on any path including the
injected-failure ones. -/
theorem nonNeg_sendCoin (σ : DBState) (f : SendFaults) (s r : String) (a : Int)
    (hσ : NonNegCoins σ) : NonNegCoins (sendCoin σ f s r a).2 := by
  have hmem : ∀ x, getUserByUsername σ r = some x → 0 ≤ x.coins := fun x hx =>
    hσ x (List.mem_of_find?_eq_some hx)
  unfold sendCoin
  repeat' split
  all_goals try exact hσ
  all_goals simp only []
  · -- only the sender debit applied
    apply nonNeg_updateUserCoins hσ
    omega
  · -- debit and credit applied, ledger insert rolled back
    apply nonNeg_updateUserCoins (nonNeg_updateUserCoins hσ (by omega))
    have := hmem _ (by assumption)
    omega
  · -- debit and credit applied, commit failed
    apply nonNeg_updateUserCoins (nonNeg_updateUserCoins hσ (by omega))
    have := hmem _ (by assumption)
    omega
  · -- full success: the ledger append does not touch users
    refine nonNegCoins_of_users_eq rfl ?_
    apply nonNeg_updateUserCoins (nonNeg_updateUserCoins hσ (by omega))
    have := hmem _ (by assumption)
    omega

/-- BuyItem never writes a negative balance, on any path including the
injected-failure ones. -/
theorem nonNeg_buyItem (σ : DBState) (f : BuyFaults) (u i : String)
    (hσ : NonNegCoins σ) : NonNegCoins (buyItem σ f u i).2 := by
  unfold buyItem
  repeat' split
  all_goals try exact hσ
  all_goals simp only []
  · apply nonNeg_updateUserCoins hσ
    omega
  · apply nonNeg_updateUserCoins hσ
    omega
  · refine nonNegCoins_of_users_eq (users_updateUserInventory _ _ _ _) ?_
    apply nonNeg_updateUserCoins hσ
    omega

/-- A successful CreateUser only appends a zero-coins row. -/
theorem nonNeg_createUser {σ σ1 : DBState} {u h : String}
    (hc : createUser σ u h = .ok σ1) (hσ : NonNegCoins σ) : NonNegCoins σ1 := by
  unfold createUser at hc
  split at hc
  · cases hc
  · cases hc
    intro x hx
    rcases List.mem_append.mp hx with hx | hx
    · exact hσ x hx
    · simp at hx
      simp [hx]

/-- Auth never writes a negative balance: registration inserts 0 and then
grants 1000. -/
theorem nonNeg_auth (c : Crypto) (σ : DBState) (f : AuthFaults) (u p : String)
    (hσ : NonNegCoins σ) : NonNegCoins (auth c σ f u p).2 := by
  unfold auth
  repeat' split
  all_goals try exact hσ
  all_goals try (apply nonNeg_createUser (by assumption) hσ)
  all_goals refine nonNeg_updateUserCoins (nonNeg_createUser (by assumption) hσ) (by norm_num)

/-- GetUserInfo returns the store unchanged on every path. -/
theorem getUserInfo_state_eq (σ : DBState) (f : InfoFaults) (u : String) :
    (getUserInfo σ f u).2 = σ := by
  unfold getUserInfo
  repeat' split
  all_goals rfl

/-- C8: starting from any store whose balances are all non-negative, no
sequence of Auth, SendCoin, BuyItem or GetUserInfo operations — with any
injected store failures — ever produces an externally observable store with
a negative balance. -/
theorem run_preserves_nonNegCoins (c : Crypto) (ops : List Op) (σ : DBState)
    (hσ : NonNegCoins σ) : NonNegCoins (run c σ ops) := by
  induction ops generalizing σ with
  | nil => exact hσ
  | cons op ops ih =>
      show NonNegCoins (run c (runOp c σ op) ops)
      refine ih (runOp c σ op) ?_
      cases op with
      | opAuth f u p => exact nonNeg_auth c σ f u p hσ
      | opSend f s r a => exact nonNeg_sendCoin σ f s r a hσ
      | opBuy f u i => exact nonNeg_buyItem σ f u i hσ
      | opInfo f u =>
          exact nonNegCoins_of_users_eq
            (by show (getUserInfo σ f u).2.users = σ.users; rw [getUserInfo_state_eq]) hσ

/-- C8 witness: a concrete run — carol registers, alice transfers 30 to
bob, bob buys a pen, and a transfer whose credit statement fails — keeps
every balance non-negative. -/
theorem run_preserves_nonNegCoins_witness :
    NonNegCoins (run cryptoTest testState
      [.opAuth {} "carol" "pw", .opSend {} "alice" "bob" 30,
       .opBuy {} "bob" "pen", .opSend { failUpdReceiver := true } "bob" "carol" 10]) :=
  run_preserves_nonNegCoins cryptoTest _ testState
    (show ∀ u ∈ testState.users, 0 ≤ u.coins by decide)

/-- Membership is preserved by the ordered insert. -/
theorem mem_insertDateDesc {a t : DBTransaction} {l : List DBTransaction} :
    a ∈ insertDateDesc t l ↔ a = t ∨ a ∈ l := by
  induction l with
  | nil => simp [insertDateDesc]
  | cons x xs ih =>
      unfold insertDateDesc
      split
      · simp only [List.mem_cons, ih]
        tauto
      · simp only [List.mem_cons]

/-- The ordered insert keeps a newest-first list newest-first. -/
theorem sorted_insertDateDesc {t : DBTransaction} {l : List DBTransaction}
    (h : DateSortedDesc l) : DateSortedDesc (insertDateDesc t l) := by
  induction l with
  | nil => simp [insertDateDesc, DateSortedDesc]
  | cons x xs ih =>
      unfold DateSortedDesc at h ⊢
      rw [List.pairwise_cons] at h
      unfold insertDateDesc
      split
      · rw [List.pairwise_cons]
        refine ⟨?_, ih h.2⟩
        intro b hb
        rcases mem_insertDateDesc.mp hb with rfl | hb
        · assumption
        · exact h.1 b hb
      · rw [List.pairwise_cons]
        refine ⟨?_, List.pairwise_cons.mpr h⟩
        intro b hb
        rcases List.mem_cons.mp hb with rfl | hb
        · omega
        · have hx := h.1 b hb
          omega

/-- The ledger rows delivered by the ORDER BY are newest-first. -/
theorem sorted_sortDateDesc (l : List DBTransaction) : DateSortedDesc (sortDateDesc l) := by
  induction l with
  | nil => simp [sortDateDesc, DateSortedDesc]
  | cons x xs ih => exact sorted_insertDateDesc ih

/-- The ORDER BY neither drops nor invents rows. -/
theorem mem_sortDateDesc {a : DBTransaction} {l : List DBTransaction} :
    a ∈ sortDateDesc l ↔ a ∈ l := by
  induction l with
  | nil => simp [sortDateDesc]
  | cons x xs ih =>
      unfold sortDateDesc
      rw [mem_insertDateDesc, ih, List.mem_cons]

/-- C9: GetUserInfo is a pure read — the store is returned unchanged on
every path — returning the user-not-found sentinel when the account is
absent and otherwise the account's coins, its inventory, and its received
and sent transfer histories, each drawn from exactly the ledger rows in the
matching direction and ordered by recency, newest first. -/
theorem getUserInfo_spec (σ : DBState) (u : String) :
    (∀ f, (getUserInfo σ f u).2 = σ) ∧
    (getUserByUsername σ u = none → (getUserInfo σ {} u).1 = .error .userNotFound) ∧
    (∀ user, getUserByUsername σ u = some user →
      (getUserInfo σ {} u).1 = .ok
        { coins := user.coins,
          inventory := (σ.inventory.filter (fun it => it.userID == user.id)).map
            (fun it => ⟨it.itemType, it.quantity⟩),
          coinHistory := getCoinHistory σ user.id } ∧
      DateSortedDesc (receivedRows σ user.id) ∧
      DateSortedDesc (sentRows σ user.id) ∧
      (∀ t, t ∈ receivedRows σ user.id ↔ t ∈ σ.ledger ∧ t.receiverUserID = user.id) ∧
      (∀ t, t ∈ sentRows σ user.id ↔ t ∈ σ.ledger ∧ t.senderUserID = user.id)) := by
  refine ⟨fun f => getUserInfo_state_eq σ f u, ?_, ?_⟩
  · intro h
    simp [getUserInfo, h]
  · intro user h
    refine ⟨by simp [getUserInfo, h], sorted_sortDateDesc _, sorted_sortDateDesc _, ?_, ?_⟩
    · intro t
      rw [receivedRows, mem_sortDateDesc, List.mem_filter]
      simp
    · intro t
      rw [sentRows, mem_sortDateDesc, List.mem_filter]
      simp

/-- C9 witness: on a store whose ledger holds bob-to-alice rows recorded at
dates 2 and 3 in insertion order, alice's received history comes back
newest-first and the store is unchanged. -/
theorem getUserInfo_spec_witness :
    (getUserInfo histState {} "alice").2 = histState ∧
    DateSortedDesc (receivedRows histState 1) ∧
    receivedRows histState 1 = [⟨2, 1, 7, 3⟩, ⟨2, 1, 4, 2⟩] := by
  have h := getUserInfo_spec histState "alice"
  exact ⟨h.1 {}, ((h.2.2 userAlice rfl).2.1 : _), by decide⟩

/-- C6 counterexample: a store failure during the item price lookup in
BuyItem does NOT surface as an Internal error with a 500 generic reply: the
code collapses every GetItemPrice error into the item-not-found sentinel,
so on alice buying pen with the price query failing, the boundary answers
400 with the item-not-found message passed through. -/
theorem buyItem_price_store_failure_gives_400 :
    (buyItem testState { failGetPrice := true } "alice" "pen").1 = .error .itemNotFound ∧
    handleBuyItemReply (buyItem testState { failGetPrice := true } "alice" "pen").1 =
      ⟨400, "не найдено: товар не найден"⟩ ∧
    handleBuyItemReply (buyItem testState { failGetPrice := true } "alice" "pen").1 ≠
      ⟨500, genericInternal⟩ := by
  refine ⟨rfl, rfl, ?_⟩
  decide

/-- CreateUser only ever fails with a wrapped store error. -/
theorem createUser_error {σ : DBState} {u h : String} {e : UCError}
    (hc : createUser σ u h = .error e) : ∃ site, e = .storeError site := by
  unfold createUser at hc
  split at hc
  · injection hc with h2
    exact ⟨_, h2.symm⟩
  · exact Except.noConfusion hc

set_option maxHeartbeats 2000000 in
/-- C6 amended: every workflow error is either one of the typed business
sentinels — which the boundary maps to 400/401/404 passing the message text
through — or a wrapped store error, which the boundary maps to 500 with the
generic message leaking no internal detail; with the one exception that a
store failure during the item price lookup in BuyItem is surfaced as the
item-not-found sentinel and therefore answered 400 with its message. -/
theorem workflow_errors_internal_maps_500 :
    (∀ site, handleSendCoinReply (.error (.storeError site)) = ⟨500, genericInternal⟩) ∧
    (∀ site, handleBuyItemReply (.error (.storeError site)) = ⟨500, genericInternal⟩) ∧
    (∀ site, handleAuthReply (.error (.storeError site)) = ⟨500, genericInternal⟩) ∧
    (∀ site, handleInfoReply (.error (.storeError site)) = ⟨500, genericInternal⟩) ∧
    (∀ σ f s r a e, (sendCoin σ f s r a).1 = .error e →
        e = .invalidAmount ∨ e = .userNotFound ∨ e = .receiverNotFound ∨
        e = .selfTransfer ∨ e = .insufficientFunds ∨ ∃ site, e = .storeError site) ∧
    (∀ σ f u i e, (buyItem σ f u i).1 = .error e →
        e = .itemRequired ∨ e = .itemNotFound ∨ e = .userNotFound ∨
        e = .notEnoughCoins ∨ ∃ site, e = .storeError site) ∧
    (∀ c σ f u p e, (auth c σ f u p).1 = .error e →
        e = .invalidPassword ∨ ∃ site, e = .storeError site) ∧
    (∀ σ f u e, (getUserInfo σ f u).1 = .error e →
        e = .userNotFound ∨ ∃ site, e = .storeError site) ∧
    (∀ e, e = .invalidAmount ∨ e = .userNotFound ∨ e = .receiverNotFound ∨
        e = .selfTransfer ∨ e = .insufficientFunds →
        handleSendCoinReply (.error e) = ⟨400, e.text⟩) ∧
    (∀ e, e = .itemRequired ∨ e = .itemNotFound ∨ e = .userNotFound ∨ e = .notEnoughCoins →
        handleBuyItemReply (.error e) = ⟨400, e.text⟩) ∧
    (handleAuthReply (.error .invalidPassword) = ⟨401, UCError.text .invalidPassword⟩) ∧
    (handleInfoReply (.error .userNotFound) = ⟨404, UCError.text .userNotFound⟩) ∧
    (∀ σ f u i, i ≠ "" → f.failGetPrice = true →
        buyItem σ f u i = (.error .itemNotFound, σ)) := by
  refine ⟨fun site => rfl, fun site => rfl, fun site => rfl, fun site => rfl,
    ?_, ?_, ?_, ?_, ?_, ?_, rfl, rfl, ?_⟩
  · intro σ f s r a e h
    unfold sendCoin at h
    repeat' split at h
    all_goals try exact Except.noConfusion h
    all_goals injection h with h2
    all_goals subst h2
    all_goals simp
  · intro σ f u i e h
    unfold buyItem at h
    repeat' split at h
    all_goals try exact Except.noConfusion h
    all_goals injection h with h2
    all_goals subst h2
    all_goals simp
  · intro c σ f u p e h
    unfold auth at h
    repeat' split at h
    all_goals try exact Except.noConfusion h
    all_goals injection h with h2
    all_goals subst h2
    all_goals try simp
    rename_i heq
    rcases createUser_error heq with ⟨site, rfl⟩
    simp
  · intro σ f u e h
    unfold getUserInfo at h
    repeat' split at h
    all_goals try exact Except.noConfusion h
    all_goals injection h with h2
    all_goals subst h2
    all_goals simp
  · intro e h
    rcases h with rfl | rfl | rfl | rfl | rfl <;> rfl
  · intro e h
    rcases h with rfl | rfl | rfl | rfl <;> rfl
  · intro σ f u i h1 h2
    simp [buyItem, h1, h2]

/-- C6 amended witness: with the price query failing on a non-empty item
name, BuyItem surfaces the item-not-found sentinel with the store
unchanged. -/
theorem workflow_errors_internal_maps_500_witness :
    buyItem testState { failGetPrice := true } "bob" "pen" =
      (.error .itemNotFound, testState) :=
  workflow_errors_internal_maps_500.2.2.2.2.2.2.2.2.2.2.2.2
    testState { failGetPrice := true } "bob" "pen" (by decide) rfl

end Shop
